import Mathlib

/-!
Verification development for the `devsecrets` repository.

The repository stores per-project development secrets under a per-user
configuration root. Its core pieces, embedded here, are:

- `devsecrets-core/src/lib.rs`: the identity sidecar file
  (`read_uuid`, `read_devsecrets_id`, `ensure_devsecrets_id`), the root
  directory lifecycle (`DevsecretsRootDir` with `with_config_root`, `new`,
  `ensure_with_config_root`, `ensure_new`, `get_child`, `ensure_child`),
  and the identity type `DevsecretsId`.
- `src/lib.rs`: the read-only accessor `DevSecrets` with `from_id`,
  `get_relative_path`, `read`, `make_reader_inner`, and the typed read
  `SourceWithFormat::into_value` with `check_extension`.
- `src/format.rs`: the `Format` deserialization contract.

The filesystem is modelled as explicit state: a set of directory paths and
a map from file paths to string contents, threaded through every operation
that may write.  An absolute filesystem path is a list of path segments.
The 128-bit UUIDs of the `uuid` crate are modelled by their 32 hex nibbles;
`Uuid::parse_str` and `to_hyphenated().encode_lower(..)` are reproduced at
the level of detail the code observes (simple, hyphenated and urn-prefixed
input forms; canonical lowercase hyphenated output).
-/

deriving instance DecidableEq for Except

namespace Devsecrets

/-! ## Hex digits and UUIDs (model of the `uuid` crate surface used) -/

/-- Value of a hex digit character, upper or lower case, as accepted by
`Uuid::parse_str`. -/
def hexDigitVal (c : Char) : Option Nat :=
  if '0' ≤ c ∧ c ≤ '9' then some (c.toNat - '0'.toNat)
  else if 'a' ≤ c ∧ c ≤ 'f' then some (c.toNat - 'a'.toNat + 10)
  else if 'A' ≤ c ∧ c ≤ 'F' then some (c.toNat - 'A'.toNat + 10)
  else none

/-- Value of a lowercase-only hex digit character.  Used to state what a
canonical (lowercase hyphenated) UUID rendering is. -/
def lowerHexDigitVal (c : Char) : Option Nat :=
  if '0' ≤ c ∧ c ≤ '9' then some (c.toNat - '0'.toNat)
  else if 'a' ≤ c ∧ c ≤ 'f' then some (c.toNat - 'a'.toNat + 10)
  else none

/-- The lowercase hex digit character for a nibble value, as produced by
`encode_lower`. -/
def hexDigitChar (n : Nat) : Char :=
  if n < 10 then Char.ofNat ('0'.toNat + n) else Char.ofNat ('a'.toNat + (n - 10))

/-- A 128-bit UUID, as its 32 hex nibbles (most significant first). -/
structure Uuid where
  nibbles : List Nat
deriving DecidableEq

/-- A well-formed UUID value: exactly 32 nibbles, each below 16. -/
def Uuid.valid (u : Uuid) : Prop :=
  u.nibbles.length = 32 ∧ ∀ d ∈ u.nibbles, d < 16

instance (u : Uuid) : Decidable u.valid := by
  unfold Uuid.valid
  infer_instance

/-- Reads `n` hex digits (under digit reader `f`) from the front of a
character list, returning their values and the rest of the list. -/
def takeHexWith (f : Char → Option Nat) : Nat → List Char → Option (List Nat × List Char)
  | 0, rest => some ([], rest)
  | _ + 1, [] => none
  | n + 1, c :: rest =>
    (f c).bind fun v => (takeHexWith f n rest).bind fun p => some (v :: p.1, p.2)

/-- Consumes one `-` character. -/
def expectDash : List Char → Option (List Char)
  | '-' :: rest => some rest
  | _ => none

/-- Parses the 8-4-4-4-12 hyphenated UUID form, with digits read by `f`,
requiring the input to be consumed exactly. -/
def parseHyphenatedWith (f : Char → Option Nat) (cs : List Char) : Option (List Nat) :=
  (takeHexWith f 8 cs).bind fun g1 =>
  (expectDash g1.2).bind fun r1 =>
  (takeHexWith f 4 r1).bind fun g2 =>
  (expectDash g2.2).bind fun r2 =>
  (takeHexWith f 4 r2).bind fun g3 =>
  (expectDash g3.2).bind fun r3 =>
  (takeHexWith f 4 r3).bind fun g4 =>
  (expectDash g4.2).bind fun r4 =>
  (takeHexWith f 12 r4).bind fun g5 =>
  if g5.2 = [] then some (g1.1 ++ (g2.1 ++ (g3.1 ++ (g4.1 ++ g5.1)))) else none

/-- Strips a leading `urn:uuid:` marker, as `Uuid::parse_str` does. -/
def stripUrn (cs : List Char) : List Char :=
  if cs.take 9 = "urn:uuid:".data then cs.drop 9 else cs

/-- Model of `Uuid::parse_str`: accepts the 32-hex-digit simple form, the
hyphenated form and the urn-prefixed hyphenated form, any digit case. -/
def Uuid.parse_str (s : String) : Option Uuid :=
  let cs := stripUrn s.data
  if cs.length = 32 then
    match cs.mapM hexDigitVal with
    | some ds => some ⟨ds⟩
    | none => none
  else
    match parseHyphenatedWith hexDigitVal cs with
    | some ds => some ⟨ds⟩
    | none => none

/-- Model of `uuid.to_hyphenated().encode_lower(..)`: the canonical
lowercase hyphenated 8-4-4-4-12 rendering. -/
def Uuid.toHyphenatedLower (u : Uuid) : String :=
  let ds := u.nibbles.map hexDigitChar
  ⟨ds.take 8 ++ '-' :: ((ds.drop 8).take 4 ++ '-' ::
    ((ds.drop 12).take 4 ++ '-' :: ((ds.drop 16).take 4 ++ '-' :: ds.drop 20)))⟩

/-- A string is a canonical UUID rendering iff it parses in the strict
lowercase hyphenated 8-4-4-4-12 form: exactly 36 characters, hyphens at
positions 8, 13, 18 and 23, lowercase hex digits elsewhere. -/
def isCanonicalUuidStr (s : String) : Bool :=
  (parseHyphenatedWith lowerHexDigitVal s.data).isSome

/-! ## Filesystem model

A path is a list of segments from the filesystem root.  The state is the
set of existing directories plus a map from file paths to their (string)
contents.  Every repository operation that can write returns the new
state; read-only operations are written to return the state unchanged. -/

/-- An absolute filesystem path, as its list of segments. -/
abbrev FPath := List String

/-- Error kinds of `std::io::Error` the embedded code distinguishes. -/
inductive IoErr
  | notFound
  | alreadyExists
  | invalidData (msg : String)
  | otherError
deriving DecidableEq

/-- The filesystem state. -/
structure FS where
  dirs : List FPath
  files : List (FPath × String)
deriving DecidableEq

/-- Whether a directory exists at `p`. -/
def FS.isDir (fs : FS) (p : FPath) : Bool := fs.dirs.contains p

/-- Whether a file exists at `p`. -/
def FS.isFile (fs : FS) (p : FPath) : Bool := (fs.files.lookup p).isSome

/-- Model of `Path::exists`. -/
def FS.pathExists (fs : FS) (p : FPath) : Bool := fs.isDir p || fs.isFile p

/-- Model of `std::fs::read_to_string` / `std::fs::read` / `File::open`. -/
def FS.readFile (fs : FS) (p : FPath) : Except IoErr String :=
  match fs.files.lookup p with
  | some c => .ok c
  | none => .error (if fs.isDir p then .otherError else .notFound)

/-- Model of `std::fs::write`: replaces or creates the file; fails when a
directory occupies the path. -/
def FS.writeFile (fs : FS) (p : FPath) (c : String) : Except IoErr FS :=
  if fs.isDir p then .error .otherError
  else .ok { fs with files := (p, c) :: fs.files }

/-- Model of `Path::metadata`, reduced to the one flag the code reads:
fails with `NotFound` when nothing exists at `p`, otherwise tells whether
`p` is a directory. -/
def FS.metadataIsDir (fs : FS) (p : FPath) : Except IoErr Bool :=
  if fs.pathExists p then .ok (fs.isDir p) else .error .notFound

/-- Model of `std::fs::create_dir_all`: creates the directory and all its
missing ancestors; fails when a file occupies any component. -/
def FS.createDirAll (fs : FS) (p : FPath) : Except IoErr FS :=
  if p.inits.any fs.isFile then .error .alreadyExists
  else .ok { fs with dirs := p.inits ++ fs.dirs }

/-! ## devsecrets-core (`devsecrets-core/src/lib.rs`) -/

def DEVSECRETS_CONFIG_DIR : String := "rust-devsecrets"

def DEVSECRETS_UUID_FILE : String := ".devsecrets_uuid.txt"

/-- The identity type.  Mirrors `pub struct DevsecretsId(pub Cow<'static, str>)`:
the string field is public, so any string is admissible here, exactly as in
the source. -/
structure DevsecretsId where
  str : String
deriving DecidableEq

/-- Model of `DevsecretsId::id_str`. -/
def DevsecretsId.id_str (id : DevsecretsId) : String := id.str

/-- Model of `DevsecretsId::from_uuid`: the canonical lowercase hyphenated
rendering of the UUID. -/
def DevsecretsId.from_uuid (u : Uuid) : DevsecretsId := ⟨u.toHyphenatedLower⟩

/-- Model of `DevsecretsId::new_unique`.  The freshly generated random
UUID (`Uuid::new_v4()`) is passed in as the `fresh` parameter; the body
renders it canonically, exactly as `from_uuid` does. -/
def DevsecretsId.new_unique (fresh : Uuid) : DevsecretsId := ⟨fresh.toHyphenatedLower⟩

/-- Model of `read_uuid`: returns `none` when the sidecar file does not
exist, the parsed UUID when its contents parse, and an `InvalidData` error
otherwise.  Performs no writes (the state is untouched, matching the
source, which only calls `exists` and `read_to_string`). -/
def read_uuid (manifest_dir : FPath) (fs : FS) : Except IoErr (Option Uuid) :=
  let uuid_file := manifest_dir ++ [DEVSECRETS_UUID_FILE]
  if fs.pathExists uuid_file then
    match fs.readFile uuid_file with
    | .error e => .error e
    | .ok contents =>
      match Uuid.parse_str contents with
      | some uuid => .ok (some uuid)
      | none => .error (.invalidData "Did not read valid UUID")
  else
    .ok none

/-- Model of `read_devsecrets_id`. -/
def read_devsecrets_id (manifest_dir : FPath) (fs : FS) : Except IoErr (Option DevsecretsId) :=
  match read_uuid manifest_dir fs with
  | .error e => .error e
  | .ok o => .ok (o.map DevsecretsId.from_uuid)

/-- Model of `ensure_devsecrets_id`.  The third component of the result
counts the `std::fs::write` calls performed. -/
def ensure_devsecrets_id (fresh : Uuid) (manifest_dir : FPath) (fs : FS) :
    Except IoErr DevsecretsId × FS × Nat :=
  match read_devsecrets_id manifest_dir fs with
  | .error e => (.error e, fs, 0)
  | .ok (some id) => (.ok id, fs, 0)
  | .ok none =>
    let uuid_file := manifest_dir ++ [DEVSECRETS_UUID_FILE]
    let new_id := DevsecretsId.new_unique fresh
    match fs.writeFile uuid_file new_id.id_str with
    | .ok fs' => (.ok new_id, fs', 1)
    | .error e => (.error e, fs, 1)

/-- The root directory handle. -/
structure DevsecretsRootDir where
  config_dir : FPath
deriving DecidableEq

/-- The child (per-project secrets) directory handle. -/
structure DevsecretsDir where
  dir : FPath
deriving DecidableEq

/-- Model of `DevsecretsDir::path`. -/
def DevsecretsDir.path (d : DevsecretsDir) : FPath := d.dir

/-- Model of `DevsecretsRootDir::with_config_root`.  Read-only: the
returned state always equals the input state. -/
def DevsecretsRootDir.with_config_root (root : FPath) (fs : FS) :
    Except IoErr (Option DevsecretsRootDir) × FS :=
  let config_dir := root ++ [DEVSECRETS_CONFIG_DIR]
  if fs.pathExists config_dir then
    if fs.isDir config_dir then (.ok (some ⟨config_dir⟩), fs)
    else (.error .alreadyExists, fs)
  else (.ok none, fs)

/-- Model of `DevsecretsRootDir::new`.  The result of `dirs::config_dir()`
is the `config_root` parameter (`none` when the platform has no
per-user configuration root). -/
def DevsecretsRootDir.new (config_root : Option FPath) (fs : FS) :
    Except IoErr (Option DevsecretsRootDir) × FS :=
  match config_root with
  | none => (.error .notFound, fs)
  | some root => DevsecretsRootDir.with_config_root root fs

/-- Model of `DevsecretsRootDir::ensure_with_config_root`. -/
def DevsecretsRootDir.ensure_with_config_root (root : FPath) (fs : FS) :
    Except IoErr DevsecretsRootDir × FS :=
  match fs.metadataIsDir root with
  | .error e => (.error e, fs)
  | .ok false => (.error .alreadyExists, fs)
  | .ok true =>
    let config_dir := root ++ [DEVSECRETS_CONFIG_DIR]
    match fs.createDirAll config_dir with
    | .ok fs' => (.ok ⟨config_dir⟩, fs')
    | .error e => (.error e, fs)

/-- Model of `DevsecretsRootDir::ensure_new`, with `dirs::config_dir()`
passed in as `config_root`. -/
def DevsecretsRootDir.ensure_new (config_root : Option FPath) (fs : FS) :
    Except IoErr DevsecretsRootDir × FS :=
  match config_root with
  | none => (.error .notFound, fs)
  | some root => DevsecretsRootDir.ensure_with_config_root root fs

/-- Model of `DevsecretsRootDir::get_child`.  Read-only. -/
def DevsecretsRootDir.get_child (rd : DevsecretsRootDir) (id : DevsecretsId) (fs : FS) :
    Except IoErr (Option DevsecretsDir) × FS :=
  let child_dir := rd.config_dir ++ [id.id_str]
  if fs.pathExists child_dir then
    match fs.metadataIsDir child_dir with
    | .error e => (.error e, fs)
    | .ok true => (.ok (some ⟨child_dir⟩), fs)
    | .ok false => (.error .alreadyExists, fs)
  else (.ok none, fs)

/-- Model of `DevsecretsRootDir::ensure_child`. -/
def DevsecretsRootDir.ensure_child (rd : DevsecretsRootDir) (id : DevsecretsId) (fs : FS) :
    Except IoErr DevsecretsDir × FS :=
  let child_dir := rd.config_dir ++ [id.id_str]
  match fs.createDirAll child_dir with
  | .ok fs' => (.ok ⟨child_dir⟩, fs')
  | .error e => (.error e, fs)

/-! ## devsecrets accessor (`src/lib.rs` and `src/format.rs`)

Request paths are modelled as Rust path component lists
(`Path::components` on Unix): a component is either the root marker, a
drive/volume marker, `.`, `..`, or a plain name segment. -/

/-- A component of a request path, mirroring `std::path::Component`. -/
inductive Component
  | rootMarker
  | volume (s : String)
  | curDir
  | parentDir
  | normal (s : String)
deriving DecidableEq

/-- Whether a component is a plain name segment (`Component::Normal`). -/
def Component.isNormal : Component → Bool
  | .normal _ => true
  | _ => false

/-- The name of a plain component. -/
def Component.name? : Component → Option String
  | .normal s => some s
  | _ => none

/-- A request path: its component list. -/
structure RPath where
  components : List Component
deriving DecidableEq

/-- Model of `Path::is_absolute` (Unix: the path starts at the root). -/
def RPath.isAbsolute (p : RPath) : Bool :=
  match p.components with
  | .rootMarker :: _ => true
  | .volume _ :: _ => true
  | _ => false

/-- Model of `Path::file_name`: the final component when it is a plain
name segment. -/
def RPath.fileName (p : RPath) : Option String :=
  match p.components.getLast? with
  | some (.normal s) => some s
  | _ => none

/-- The characters after the last `.` of a file name, when it has one. -/
def afterLastDot : List Char → Option (List Char)
  | [] => none
  | c :: rest =>
    match afterLastDot rest with
    | some e => some e
    | none => if c = '.' then some rest else none

/-- Model of `Path::extension`: the suffix of the file name after its last
`.`, where a `.` leading the file name does not count. -/
def RPath.extension (p : RPath) : Option String :=
  match p.fileName with
  | none => none
  | some f =>
    match f.data with
    | [] => none
    | c :: rest =>
      if c = '.' then (afterLastDot rest).map fun e => ⟨e⟩
      else (afterLastDot (c :: rest)).map fun e => ⟨e⟩

/-- The error enum of `src/lib.rs`.  `ParseError`'s boxed cause and
`FileError`'s `io::Error` payloads are carried as a string and an `IoErr`
respectively. -/
inductive DsError
  | directoryNotInitialized
  | invalidRelativePath (msg : String)
  | invalidExtension (msg : String)
  | fileError (e : IoErr)
  | parseError (msg : String)
  | ioError (e : IoErr)
deriving DecidableEq

/-- Model of `check_extension`. -/
def check_extension (p : RPath) (ext : String) : Except DsError Unit :=
  if p.extension ≠ some ext then
    .error (.invalidExtension "path must have the expected extension")
  else .ok ()

/-- The accessor, holding its child directory handle. -/
structure DevSecrets where
  dir : DevsecretsDir
deriving DecidableEq

/-- Model of `DevSecrets::root_dir`. -/
def DevSecrets.root_dir (ds : DevSecrets) : FPath := ds.dir.path

/-- Model of `DevSecrets::from_id`: open the root directory, look up the
child directory, mapping either absence to `DirectoryNotInitialized` and
io failures (via the `#[from]` conversion) to `IoError`. -/
def DevSecrets.from_id (config_root : Option FPath) (id : DevsecretsId) (fs : FS) :
    Except DsError DevSecrets × FS :=
  match DevsecretsRootDir.new config_root fs with
  | (.error e, fs') => (.error (.ioError e), fs')
  | (.ok none, fs') => (.error .directoryNotInitialized, fs')
  | (.ok (some root), fs') =>
    match root.get_child id fs' with
    | (.error e, fs'') => (.error (.ioError e), fs'')
    | (.ok none, fs'') => (.error .directoryNotInitialized, fs'')
    | (.ok (some child), fs'') => (.ok ⟨child⟩, fs'')

/-- Model of `DevSecrets::get_relative_path`: reject absolute paths, then
reject any non-plain component, then join under the child directory. -/
def DevSecrets.get_relative_path (ds : DevSecrets) (relpath : RPath) : Except DsError FPath :=
  if relpath.isAbsolute then
    .error (.invalidRelativePath "path must not be absolute")
  else if relpath.components.all Component.isNormal then
    .ok (ds.root_dir ++ relpath.components.filterMap Component.name?)
  else
    .error (.invalidRelativePath "path has a non-normal component")

/-- Model of `DevSecrets::make_reader_inner`: resolve the path, then open
the file (`File::open`, wrapped into `FileError`).  The opened reader is
modelled by the file contents. -/
def DevSecrets.make_reader_inner (ds : DevSecrets) (p : RPath) (fs : FS) :
    Except DsError String × FS :=
  match ds.get_relative_path p with
  | .error e => (.error e, fs)
  | .ok fullpath =>
    match fs.readFile fullpath with
    | .ok contents => (.ok contents, fs)
    | .error e => (.error (.fileError e), fs)

/-- Model of `DevSecrets::read`: resolve the path, then read the file
contents (`std::fs::read`, wrapped into `FileError`). -/
def DevSecrets.read (ds : DevSecrets) (p : RPath) (fs : FS) :
    Except DsError String × FS :=
  match ds.get_relative_path p with
  | .error e => (.error e, fs)
  | .ok fullpath =>
    match fs.readFile fullpath with
    | .ok contents => (.ok contents, fs)
    | .error e => (.error (.fileError e), fs)

/-- The `Format` trait of `src/format.rs`: a declared extension and a
deserializer from the byte stream (modelled by the file contents) to a
value of type `α`, or an error (the trait's `Error` type, carried as a
string). -/
structure Format (α : Type) where
  extension : String
  deserialize : String → Except String α

/-- Model of `SourceWithFormat::into_value`: check the extension, then
open a reader via `make_reader_inner`, then deserialize, wrapping the
deserializer's error into `ParseError`. -/
def into_value {α : Type} (F : Format α) (ds : DevSecrets) (p : RPath) (fs : FS) :
    Except DsError α × FS :=
  match check_extension p F.extension with
  | .error e => (.error e, fs)
  | .ok _ =>
    match ds.make_reader_inner p fs with
    | (.error e, fs') => (.error e, fs')
    | (.ok reader, fs') =>
      match F.deserialize reader with
      | .error e => (.error (.parseError e), fs')
      | .ok v => (.ok v, fs')

/-! ## Helper lemmas: hex digits and the UUID parse/print round trip -/

theorem hexDigitVal_hexDigitChar : ∀ n < 16, hexDigitVal (hexDigitChar n) = some n := by decide

theorem lowerHexDigitVal_hexDigitChar : ∀ n < 16, lowerHexDigitVal (hexDigitChar n) = some n := by
  decide

theorem hexDigitChar_ne_u : ∀ n < 16, hexDigitChar n ≠ 'u' := by decide

theorem takeHexWith_map_append (f : Char → Option Nat)
    (hf : ∀ n < 16, f (hexDigitChar n) = some n) :
    ∀ ds : List Nat, (∀ d ∈ ds, d < 16) →
      ∀ rest, takeHexWith f ds.length (ds.map hexDigitChar ++ rest) = some (ds, rest) := by
  intro ds
  induction ds with
  | nil => intro _ rest; rfl
  | cons d ds ih =>
    intro hmem rest
    have hd : d < 16 := hmem d (by simp)
    have hrec := ih (fun x hx => hmem x (by simp [hx])) rest
    simp only [List.map_cons, List.length_cons, List.cons_append, takeHexWith, hf d hd,
      Option.bind, List.append_eq, hrec]

theorem parseHyphenatedWith_groups (f : Char → Option Nat)
    (hf : ∀ n < 16, f (hexDigitChar n) = some n) (a b c d e : List Nat)
    (ha : a.length = 8) (hb : b.length = 4) (hc : c.length = 4) (hd : d.length = 4)
    (he : e.length = 12) (hmem : ∀ x ∈ a ++ (b ++ (c ++ (d ++ e))), x < 16) :
    parseHyphenatedWith f
      (a.map hexDigitChar ++ '-' :: (b.map hexDigitChar ++ '-' :: (c.map hexDigitChar ++ '-' ::
        (d.map hexDigitChar ++ '-' :: e.map hexDigitChar)))) =
      some (a ++ (b ++ (c ++ (d ++ e)))) := by
  have hma : ∀ x ∈ a, x < 16 := fun x hx => hmem x (by simp [hx])
  have hmb : ∀ x ∈ b, x < 16 := fun x hx => hmem x (by simp [hx])
  have hmc : ∀ x ∈ c, x < 16 := fun x hx => hmem x (by simp [hx])
  have hmd : ∀ x ∈ d, x < 16 := fun x hx => hmem x (by simp [hx])
  have hme : ∀ x ∈ e, x < 16 := fun x hx => hmem x (by simp [hx])
  have h1 := ha ▸ takeHexWith_map_append f hf a hma
    ('-' :: (b.map hexDigitChar ++ '-' :: (c.map hexDigitChar ++ '-' ::
      (d.map hexDigitChar ++ '-' :: e.map hexDigitChar))))
  have h2 := hb ▸ takeHexWith_map_append f hf b hmb
    ('-' :: (c.map hexDigitChar ++ '-' :: (d.map hexDigitChar ++ '-' :: e.map hexDigitChar)))
  have h3 := hc ▸ takeHexWith_map_append f hf c hmc
    ('-' :: (d.map hexDigitChar ++ '-' :: e.map hexDigitChar))
  have h4 := hd ▸ takeHexWith_map_append f hf d hmd ('-' :: e.map hexDigitChar)
  have h5 : takeHexWith f 12 (e.map hexDigitChar) = some (e, []) := by
    have := he ▸ takeHexWith_map_append f hf e hme []
    simpa using this
  simp only [parseHyphenatedWith, h1, h2, h3, h4, h5, Option.bind, expectDash]
  simp

theorem toHyphenatedLower_data (u : Uuid) :
    u.toHyphenatedLower.data =
      (u.nibbles.take 8).map hexDigitChar ++ '-' ::
        (((u.nibbles.drop 8).take 4).map hexDigitChar ++ '-' ::
          (((u.nibbles.drop 12).take 4).map hexDigitChar ++ '-' ::
            (((u.nibbles.drop 16).take 4).map hexDigitChar ++ '-' ::
              (u.nibbles.drop 20).map hexDigitChar))) := by
  simp [Uuid.toHyphenatedLower, List.map_take, List.map_drop]

theorem nibbles_decomp (n : List Nat) :
    n.take 8 ++ ((n.drop 8).take 4 ++ ((n.drop 12).take 4 ++
      ((n.drop 16).take 4 ++ n.drop 20))) = n := by
  have h12 : (n.drop 8).drop 4 = n.drop 12 := by
    rw [List.drop_drop]
  have h16 : (n.drop 12).drop 4 = n.drop 16 := by
    rw [List.drop_drop]
  have h20 : (n.drop 16).drop 4 = n.drop 20 := by
    rw [List.drop_drop]
  conv_rhs => rw [← List.take_append_drop 8 n]
  congr 1
  conv_rhs => rw [← List.take_append_drop 4 (n.drop 8), h12]
  congr 1
  conv_rhs => rw [← List.take_append_drop 4 (n.drop 12), h16]
  congr 1
  conv_rhs => rw [← List.take_append_drop 4 (n.drop 16), h20]

theorem parseHyphenatedWith_toHyphenatedLower (f : Char → Option Nat)
    (hf : ∀ n < 16, f (hexDigitChar n) = some n) (u : Uuid) (hu : u.valid) :
    parseHyphenatedWith f u.toHyphenatedLower.data = some u.nibbles := by
  obtain ⟨h32, hmem⟩ := hu
  rw [toHyphenatedLower_data]
  have ha : (u.nibbles.take 8).length = 8 := by
    simp [List.length_take, h32]
  have hb : ((u.nibbles.drop 8).take 4).length = 4 := by
    simp [List.length_take, List.length_drop, h32]
  have hc : ((u.nibbles.drop 12).take 4).length = 4 := by
    simp [List.length_take, List.length_drop, h32]
  have hd : ((u.nibbles.drop 16).take 4).length = 4 := by
    simp [List.length_take, List.length_drop, h32]
  have he : (u.nibbles.drop 20).length = 12 := by
    simp [List.length_drop, h32]
  have hm : ∀ x ∈ u.nibbles.take 8 ++ ((u.nibbles.drop 8).take 4 ++
      ((u.nibbles.drop 12).take 4 ++ ((u.nibbles.drop 16).take 4 ++ u.nibbles.drop 20))),
      x < 16 := by
    intro x hx
    rw [nibbles_decomp] at hx
    exact hmem x hx
  rw [parseHyphenatedWith_groups f hf _ _ _ _ _ ha hb hc hd he hm, nibbles_decomp]

theorem toHyphenatedLower_data_length (u : Uuid) (hu : u.valid) :
    u.toHyphenatedLower.data.length = 36 := by
  obtain ⟨h32, _⟩ := hu
  rw [toHyphenatedLower_data]
  simp [List.length_take, List.length_drop, h32]

theorem toHyphenatedLower_length (u : Uuid) (hu : u.valid) :
    u.toHyphenatedLower.length = 36 :=
  toHyphenatedLower_data_length u hu

theorem toHyphenatedLower_take9_ne_urn (u : Uuid) (hu : u.valid) :
    u.toHyphenatedLower.data.take 9 ≠ "urn:uuid:".data := by
  obtain ⟨h32, hmem⟩ := hu
  have hlen : (u.nibbles.take 8).length = 8 := by
    simp [List.length_take, h32]
  obtain ⟨a0, a', ha'⟩ : ∃ x xs, u.nibbles.take 8 = x :: xs := by
    cases h : u.nibbles.take 8 with
    | nil => rw [h] at hlen; simp at hlen
    | cons x xs => exact ⟨x, xs, rfl⟩
  have ha0 : a0 < 16 := by
    have : a0 ∈ u.nibbles.take 8 := by rw [ha']; simp
    exact hmem a0 (List.take_subset _ _ this)
  rw [toHyphenatedLower_data, ha']
  intro h
  have hhead : hexDigitChar a0 = 'u' := by
    have := congrArg (·.head?) h
    simpa using this
  exact hexDigitChar_ne_u a0 ha0 hhead

theorem parse_str_toHyphenatedLower (u : Uuid) (hu : u.valid) :
    Uuid.parse_str u.toHyphenatedLower = some u := by
  have hurn : stripUrn u.toHyphenatedLower.data = u.toHyphenatedLower.data := by
    rw [stripUrn, if_neg (toHyphenatedLower_take9_ne_urn u hu)]
  have hlen : u.toHyphenatedLower.data.length = 36 := toHyphenatedLower_data_length u hu
  simp only [Uuid.parse_str, hurn, hlen]
  rw [if_neg (by norm_num),
    parseHyphenatedWith_toHyphenatedLower hexDigitVal hexDigitVal_hexDigitChar u hu]

theorem isCanonicalUuidStr_toHyphenatedLower (u : Uuid) (hu : u.valid) :
    isCanonicalUuidStr u.toHyphenatedLower = true := by
  rw [isCanonicalUuidStr,
    parseHyphenatedWith_toHyphenatedLower lowerHexDigitVal lowerHexDigitVal_hexDigitChar u hu]
  rfl

theorem lookup_cons_self {α β : Type} [BEq α] [LawfulBEq α] (k : α) (v : β)
    (l : List (α × β)) : List.lookup k ((k, v) :: l) = some v := by
  simp [List.lookup]

/-! ## Claim C1: path resolution -/

/-- `p` lies strictly inside the directory `base`: it extends `base` by at
least one segment. -/
def strictlyInside (base p : FPath) : Prop := ∃ rest, rest ≠ [] ∧ p = base ++ rest

/-- A path all of whose components are plain names is not absolute. -/
theorem isAbsolute_eq_false_of_all_normal (p : RPath)
    (h : p.components.all Component.isNormal = true) : p.isAbsolute = false := by
  rw [RPath.isAbsolute]
  cases hc : p.components with
  | nil => rfl
  | cons c cs =>
    rw [hc, List.all_cons, Bool.and_eq_true] at h
    cases c <;> first | rfl | (exfalso; exact Bool.false_ne_true h.1)

/-- Claim C1 counterexample: the empty request path is relative, and every
one of its components (there are none) is a plain name segment, yet
`get_relative_path` returns the child directory itself — the claimed
result "a path strictly inside the Child Directory" fails for it. -/
theorem get_relative_path_empty_counterexample :
    RPath.isAbsolute ⟨[]⟩ = false
    ∧ (RPath.components ⟨[]⟩).all Component.isNormal = true
    ∧ (DevSecrets.mk ⟨["root"]⟩).get_relative_path ⟨[]⟩ = .ok ["root"]
    ∧ ¬ strictlyInside ["root"] ["root"] := by
  refine ⟨rfl, rfl, by decide, ?_⟩
  rintro ⟨rest, hne, heq⟩
  exact hne (by simpa using heq.symm)

/-- Claim C1 (amended): for every nonempty relative request path all of
whose components are plain name segments, `get_relative_path` succeeds
and returns the Child Directory path joined with the request's segments,
a path strictly inside the Child Directory; for every request path that
is absolute or contains a non-plain-name component, it fails with
`InvalidRelativePath`, and `read` then fails the same way on every
filesystem state, leaving the state untouched (no filesystem call). -/
theorem get_relative_path_spec (ds : DevSecrets) (p : RPath) :
    (p.components ≠ [] → p.components.all Component.isNormal = true →
      ds.get_relative_path p = .ok (ds.root_dir ++ p.components.filterMap Component.name?)
      ∧ strictlyInside ds.root_dir (ds.root_dir ++ p.components.filterMap Component.name?))
    ∧ (p.isAbsolute = true ∨ p.components.all Component.isNormal = false →
      ∃ msg, ds.get_relative_path p = .error (.invalidRelativePath msg)
        ∧ ∀ fs, ds.read p fs = (.error (.invalidRelativePath msg), fs)) := by
  constructor
  · intro hne hall
    have habs := isAbsolute_eq_false_of_all_normal p hall
    have hok : ds.get_relative_path p =
        .ok (ds.root_dir ++ p.components.filterMap Component.name?) := by
      rw [DevSecrets.get_relative_path, habs, if_neg (by simp), if_pos hall]
    refine ⟨hok, p.components.filterMap Component.name?, ?_, rfl⟩
    cases hc : p.components with
    | nil => exact absurd hc hne
    | cons c cs =>
      rw [hc, List.all_cons, Bool.and_eq_true] at hall
      cases c with
      | normal s => simp [Component.name?]
      | rootMarker => exact absurd hall.1 (by simp [Component.isNormal])
      | volume s => exact absurd hall.1 (by simp [Component.isNormal])
      | curDir => exact absurd hall.1 (by simp [Component.isNormal])
      | parentDir => exact absurd hall.1 (by simp [Component.isNormal])
  · intro hbad
    have herr : ∃ msg, ds.get_relative_path p = .error (.invalidRelativePath msg) := by
      rcases hbad with habs | hall
      · exact ⟨"path must not be absolute", by rw [DevSecrets.get_relative_path, habs]; rfl⟩
      · by_cases habs : p.isAbsolute = true
        · exact ⟨"path must not be absolute", by rw [DevSecrets.get_relative_path, habs]; rfl⟩
        · refine ⟨"path has a non-normal component", ?_⟩
          rw [DevSecrets.get_relative_path,
            if_neg (by simpa using Bool.not_eq_true p.isAbsolute ▸ habs), hall]
          rfl
    obtain ⟨msg, hmsg⟩ := herr
    refine ⟨msg, hmsg, fun fs => ?_⟩
    rw [DevSecrets.read, hmsg]

/-- Claim C1 witness: the amended theorem applied to the valid request
`a/b.txt` and to the invalid request `../x` under child directory `r`. -/
theorem get_relative_path_spec_witness :
    ((DevSecrets.mk ⟨["r"]⟩).get_relative_path ⟨[.normal "a", .normal "b.txt"]⟩ =
        .ok ["r", "a", "b.txt"]
      ∧ strictlyInside ["r"] ["r", "a", "b.txt"])
    ∧ (DevSecrets.mk ⟨["r"]⟩).read ⟨[.parentDir, .normal "x"]⟩ ⟨[], []⟩ =
        (.error (.invalidRelativePath "path has a non-normal component"), ⟨[], []⟩) := by
  constructor
  · exact (get_relative_path_spec (DevSecrets.mk ⟨["r"]⟩) ⟨[.normal "a", .normal "b.txt"]⟩).1
      (by decide) (by decide)
  · obtain ⟨msg, h1, h2⟩ :=
      (get_relative_path_spec (DevSecrets.mk ⟨["r"]⟩) ⟨[.parentDir, .normal "x"]⟩).2
        (Or.inr (by decide))
    have hc : (DevSecrets.mk ⟨["r"]⟩).get_relative_path ⟨[.parentDir, .normal "x"]⟩ =
        .error (.invalidRelativePath "path has a non-normal component") := by decide
    rw [hc] at h1
    have hmsg : "path has a non-normal component" = msg := by
      injection h1 with h
      injection h with h
    rw [← hmsg] at h2
    exact h2 ⟨[], []⟩

/-! ## Claims C2 and C3: the identity sidecar file -/

theorem readFile_after_write (fs : FS) (p : FPath) (c : String) :
    FS.readFile ⟨fs.dirs, (p, c) :: fs.files⟩ p = .ok c := by
  simp [FS.readFile, lookup_cons_self]

theorem pathExists_after_write (fs : FS) (p : FPath) (c : String) :
    FS.pathExists ⟨fs.dirs, (p, c) :: fs.files⟩ p = true := by
  simp [FS.pathExists, FS.isFile, lookup_cons_self]

/-- If `read_uuid` reports the sidecar file as absent, it is absent. -/
theorem pathExists_eq_false_of_read_uuid_ok_none (dir : FPath) (fs : FS)
    (h : read_uuid dir fs = .ok none) :
    fs.pathExists (dir ++ [DEVSECRETS_UUID_FILE]) = false := by
  by_contra hne
  have hex : fs.pathExists (dir ++ [DEVSECRETS_UUID_FILE]) = true := by
    revert hne
    cases fs.pathExists (dir ++ [DEVSECRETS_UUID_FILE]) <;> simp
  simp only [read_uuid, hex, if_true] at h
  cases hr : fs.readFile (dir ++ [DEVSECRETS_UUID_FILE]) with
  | error e => simp only [hr] at h; exact Except.noConfusion h
  | ok c =>
    simp only [hr] at h
    cases hp : Uuid.parse_str c with
    | none => simp only [hp] at h; exact Except.noConfusion h
    | some u =>
      simp only [hp] at h
      exact Option.noConfusion (Except.ok.inj h)

/-- Claim C2: when the sidecar file exists but its contents do not parse
as a UUID, `read_uuid`, `read_devsecrets_id` and `ensure_devsecrets_id`
all fail with the `InvalidData` (corrupt identity) error; `ensure`
performs zero writes and returns the filesystem unchanged, so the corrupt
contents are preserved. -/
theorem corrupt_sidecar_spec (dir : FPath) (fs : FS) (c : String) (fresh : Uuid)
    (hfile : fs.files.lookup (dir ++ [DEVSECRETS_UUID_FILE]) = some c)
    (hbad : Uuid.parse_str c = none) :
    read_uuid dir fs = .error (.invalidData "Did not read valid UUID")
    ∧ read_devsecrets_id dir fs = .error (.invalidData "Did not read valid UUID")
    ∧ ensure_devsecrets_id fresh dir fs =
        (.error (.invalidData "Did not read valid UUID"), fs, 0) := by
  have hex : fs.pathExists (dir ++ [DEVSECRETS_UUID_FILE]) = true := by
    simp [FS.pathExists, FS.isFile, hfile]
  have hread : fs.readFile (dir ++ [DEVSECRETS_UUID_FILE]) = .ok c := by
    simp [FS.readFile, hfile]
  have h1 : read_uuid dir fs = .error (.invalidData "Did not read valid UUID") := by
    rw [read_uuid]
    simp only [hex, if_true, hread, hbad]
  have h2 : read_devsecrets_id dir fs = .error (.invalidData "Did not read valid UUID") := by
    rw [read_devsecrets_id, h1]
  refine ⟨h1, h2, ?_⟩
  rw [ensure_devsecrets_id, h2]

/-- Claim C2 witness: a sidecar file containing `not-a-uuid` makes all
three operations fail with the corrupt-identity error and leaves the
filesystem unchanged. -/
theorem corrupt_sidecar_spec_witness :
    read_uuid ["proj"] ⟨[["proj"]], [(["proj", ".devsecrets_uuid.txt"], "not-a-uuid")]⟩ =
      .error (.invalidData "Did not read valid UUID")
    ∧ read_devsecrets_id ["proj"]
        ⟨[["proj"]], [(["proj", ".devsecrets_uuid.txt"], "not-a-uuid")]⟩ =
      .error (.invalidData "Did not read valid UUID")
    ∧ ensure_devsecrets_id ⟨List.replicate 32 0⟩ ["proj"]
        ⟨[["proj"]], [(["proj", ".devsecrets_uuid.txt"], "not-a-uuid")]⟩ =
      (.error (.invalidData "Did not read valid UUID"),
        ⟨[["proj"]], [(["proj", ".devsecrets_uuid.txt"], "not-a-uuid")]⟩, 0) :=
  corrupt_sidecar_spec ["proj"] ⟨[["proj"]], [(["proj", ".devsecrets_uuid.txt"], "not-a-uuid")]⟩
    "not-a-uuid" ⟨List.replicate 32 0⟩ (by decide) (by decide)

/-- Claim C3: `ensure_devsecrets_id` is idempotent.  If a first call
succeeds with identity `id`, a second call (with any other freshly
generated UUID) returns the same `id`, performs zero writes and leaves
the filesystem unchanged; the first call performed exactly one write when
the sidecar file was absent, and zero writes — with the filesystem
untouched — when an already-valid sidecar file was found. -/
theorem ensure_devsecrets_id_idempotent (fresh fresh' : Uuid) (dir : FPath) (fs fs₁ : FS)
    (id : DevsecretsId) (n₁ : Nat) (hv : fresh.valid)
    (h : ensure_devsecrets_id fresh dir fs = (.ok id, fs₁, n₁)) :
    ensure_devsecrets_id fresh' dir fs₁ = (.ok id, fs₁, 0)
    ∧ (fs.pathExists (dir ++ [DEVSECRETS_UUID_FILE]) = false → n₁ = 1)
    ∧ (fs.pathExists (dir ++ [DEVSECRETS_UUID_FILE]) = true → n₁ = 0 ∧ fs₁ = fs) := by
  cases hre : read_devsecrets_id dir fs with
  | error e =>
    simp only [ensure_devsecrets_id, hre, Prod.mk.injEq] at h
    exact absurd h.1 (by simp)
  | ok o =>
    cases o with
    | some id₀ =>
      simp only [ensure_devsecrets_id, hre, Prod.mk.injEq] at h
      obtain ⟨h₁, h₂, h₃⟩ := h
      have hid : id₀ = id := Except.ok.inj h₁
      have hexists : fs.pathExists (dir ++ [DEVSECRETS_UUID_FILE]) = true := by
        by_contra hne
        have hf : fs.pathExists (dir ++ [DEVSECRETS_UUID_FILE]) = false := by
          revert hne
          cases fs.pathExists (dir ++ [DEVSECRETS_UUID_FILE]) <;> simp
        have hnone : read_uuid dir fs = .ok none := by
          simp only [read_uuid, hf, Bool.false_eq_true, if_false]
        simp only [read_devsecrets_id, hnone] at hre
        exact Option.noConfusion (Except.ok.inj hre)
      refine ⟨?_, fun hcontra => by rw [hexists] at hcontra; exact Bool.noConfusion hcontra,
        fun _ => ⟨h₃.symm, h₂.symm⟩⟩
      rw [← h₂]
      simp only [ensure_devsecrets_id, hre, hid]
    | none =>
      have hne : fs.pathExists (dir ++ [DEVSECRETS_UUID_FILE]) = false := by
        apply pathExists_eq_false_of_read_uuid_ok_none
        cases hru : read_uuid dir fs with
        | error e => simp only [read_devsecrets_id, hru] at hre; exact Except.noConfusion hre
        | ok o' =>
          simp only [read_devsecrets_id, hru] at hre
          cases o' with
          | none => rfl
          | some u => exact Option.noConfusion (Except.ok.inj hre)
      cases hdir : fs.isDir (dir ++ [DEVSECRETS_UUID_FILE]) with
      | true =>
        have hw : fs.writeFile (dir ++ [DEVSECRETS_UUID_FILE])
            (DevsecretsId.new_unique fresh).id_str = .error .otherError := by
          rw [FS.writeFile, hdir]
          rfl
        simp only [ensure_devsecrets_id, hre, hw, Prod.mk.injEq] at h
        exact absurd h.1 (by simp)
      | false =>
        have hw : fs.writeFile (dir ++ [DEVSECRETS_UUID_FILE])
            (DevsecretsId.new_unique fresh).id_str =
            .ok ⟨fs.dirs, ((dir ++ [DEVSECRETS_UUID_FILE]),
              (DevsecretsId.new_unique fresh).id_str) :: fs.files⟩ := by
          rw [FS.writeFile, hdir]
          rfl
        simp only [ensure_devsecrets_id, hre, hw, Prod.mk.injEq] at h
        obtain ⟨h₁, h₂, h₃⟩ := h
        have hid : DevsecretsId.new_unique fresh = id := Except.ok.inj h₁
        refine ⟨?_, fun _ => h₃.symm, fun hcontra => by
          rw [hne] at hcontra; exact Bool.noConfusion hcontra⟩
        have hparse : Uuid.parse_str (DevsecretsId.new_unique fresh).id_str = some fresh :=
          parse_str_toHyphenatedLower fresh hv
        have hread2 : read_devsecrets_id dir fs₁ = .ok (some id) := by
          rw [← h₂]
          simp only [read_devsecrets_id, read_uuid, pathExists_after_write, if_true,
            readFile_after_write, hparse]
          rw [show Option.map DevsecretsId.from_uuid (some fresh) = some id by
            rw [← hid]; rfl]
        simp only [ensure_devsecrets_id, hread2]

/-- Claim C3 witness: on a project directory with no sidecar file, a
first call (generating the all-zero UUID) writes once; the idempotence
theorem then yields that a second call with a different fresh UUID
returns the same identity, writes nothing and leaves the state fixed. -/
theorem ensure_devsecrets_id_idempotent_witness :
    ensure_devsecrets_id ⟨List.replicate 32 1⟩ ["proj"]
      ⟨[["proj"]], [(["proj", ".devsecrets_uuid.txt"],
        "00000000-0000-0000-0000-000000000000")]⟩ =
      (.ok ⟨"00000000-0000-0000-0000-000000000000"⟩,
        ⟨[["proj"]], [(["proj", ".devsecrets_uuid.txt"],
          "00000000-0000-0000-0000-000000000000")]⟩, 0) :=
  (ensure_devsecrets_id_idempotent ⟨List.replicate 32 0⟩ ⟨List.replicate 32 1⟩ ["proj"]
    ⟨[["proj"]], []⟩
    ⟨[["proj"]], [(["proj", ".devsecrets_uuid.txt"],
      "00000000-0000-0000-0000-000000000000")]⟩
    ⟨"00000000-0000-0000-0000-000000000000"⟩ 1 (by decide) (by decide)).1

/-! ## Claim C4: accessor construction -/

/-- Claim C4: `DevSecrets::from_id` reports `DirectoryNotInitialized`
whenever the root directory or the child directory for the identity does
not exist; it creates nothing (the filesystem is returned unchanged on
every outcome); and the `DirectoryNotInitialized` outcome arises only
from such genuine absence, never from an io failure (io failures surface
as the separate `IoError` constructor). -/
theorem from_id_spec (config_root : Option FPath) (r : FPath) (id : DevsecretsId) (fs : FS) :
    (config_root = some r → fs.pathExists (r ++ [DEVSECRETS_CONFIG_DIR]) = false →
      DevSecrets.from_id config_root id fs = (.error .directoryNotInitialized, fs))
    ∧ (config_root = some r → fs.isDir (r ++ [DEVSECRETS_CONFIG_DIR]) = true →
      fs.pathExists (r ++ [DEVSECRETS_CONFIG_DIR] ++ [id.id_str]) = false →
      DevSecrets.from_id config_root id fs = (.error .directoryNotInitialized, fs))
    ∧ (∀ res fs', DevSecrets.from_id config_root id fs = (res, fs') → fs' = fs)
    ∧ (∀ fs', DevSecrets.from_id config_root id fs = (.error .directoryNotInitialized, fs') →
        ∃ root, config_root = some root
          ∧ (fs.pathExists (root ++ [DEVSECRETS_CONFIG_DIR]) = false
            ∨ (fs.isDir (root ++ [DEVSECRETS_CONFIG_DIR]) = true
              ∧ fs.pathExists (root ++ [DEVSECRETS_CONFIG_DIR] ++ [id.id_str]) = false))) := by
  refine ⟨?_, ?_, ?_, ?_⟩
  · rintro rfl hpe
    simp only [DevSecrets.from_id, DevsecretsRootDir.new, DevsecretsRootDir.with_config_root,
      hpe, Bool.false_eq_true, if_false]
  · rintro rfl hdir hpe
    have hpe1 : fs.pathExists (r ++ [DEVSECRETS_CONFIG_DIR]) = true := by
      simp [FS.pathExists, hdir]
    simp only [DevSecrets.from_id, DevsecretsRootDir.new, DevsecretsRootDir.with_config_root,
      hpe1, hdir, if_true, DevsecretsRootDir.get_child, hpe, Bool.false_eq_true, if_false]
  · intro res fs' h
    cases config_root with
    | none =>
      simp only [DevSecrets.from_id, DevsecretsRootDir.new, Prod.mk.injEq] at h
      exact h.2.symm
    | some root =>
      cases hpe : fs.pathExists (root ++ [DEVSECRETS_CONFIG_DIR]) with
      | false =>
        simp only [DevSecrets.from_id, DevsecretsRootDir.new,
          DevsecretsRootDir.with_config_root, hpe, Bool.false_eq_true, if_false,
          Prod.mk.injEq] at h
        exact h.2.symm
      | true =>
        cases hdir : fs.isDir (root ++ [DEVSECRETS_CONFIG_DIR]) with
        | false =>
          simp only [DevSecrets.from_id, DevsecretsRootDir.new,
            DevsecretsRootDir.with_config_root, hpe, hdir, if_true, Bool.false_eq_true,
            if_false, Prod.mk.injEq] at h
          exact h.2.symm
        | true =>
          cases hpec : fs.pathExists (root ++ [DEVSECRETS_CONFIG_DIR] ++ [id.id_str]) with
          | false =>
            simp only [DevSecrets.from_id, DevsecretsRootDir.new,
              DevsecretsRootDir.with_config_root, hpe, hdir, if_true,
              DevsecretsRootDir.get_child, hpec, Bool.false_eq_true,
              if_false, Prod.mk.injEq] at h
            exact h.2.symm
          | true =>
            cases hdc : fs.isDir (root ++ [DEVSECRETS_CONFIG_DIR] ++ [id.id_str]) with
            | false =>
              simp only [DevSecrets.from_id, DevsecretsRootDir.new,
                DevsecretsRootDir.with_config_root, hpe, hdir, if_true,
                DevsecretsRootDir.get_child, hpec, FS.metadataIsDir,
                hdc, Bool.false_eq_true, if_false, Prod.mk.injEq] at h
              exact h.2.symm
            | true =>
              simp only [DevSecrets.from_id, DevsecretsRootDir.new,
                DevsecretsRootDir.with_config_root, hpe, hdir, if_true,
                DevsecretsRootDir.get_child, hpec, FS.metadataIsDir,
                hdc, Prod.mk.injEq] at h
              exact h.2.symm
  · intro fs' h
    cases config_root with
    | none =>
      simp only [DevSecrets.from_id, DevsecretsRootDir.new, Prod.mk.injEq] at h
      exact absurd h.1 (by simp)
    | some root =>
      refine ⟨root, rfl, ?_⟩
      cases hpe : fs.pathExists (root ++ [DEVSECRETS_CONFIG_DIR]) with
      | false => exact Or.inl rfl
      | true =>
        cases hdir : fs.isDir (root ++ [DEVSECRETS_CONFIG_DIR]) with
        | false =>
          simp only [DevSecrets.from_id, DevsecretsRootDir.new,
            DevsecretsRootDir.with_config_root, hpe, hdir, if_true, Bool.false_eq_true,
            if_false, Prod.mk.injEq] at h
          exact absurd h.1 (by simp)
        | true =>
          cases hpec : fs.pathExists (root ++ [DEVSECRETS_CONFIG_DIR] ++ [id.id_str]) with
          | false => exact Or.inr ⟨rfl, rfl⟩
          | true =>
            cases hdc : fs.isDir (root ++ [DEVSECRETS_CONFIG_DIR] ++ [id.id_str]) with
            | false =>
              simp only [DevSecrets.from_id, DevsecretsRootDir.new,
                DevsecretsRootDir.with_config_root, hpe, hdir, if_true,
                DevsecretsRootDir.get_child, hpec, FS.metadataIsDir,
                hdc, Bool.false_eq_true, if_false, Prod.mk.injEq] at h
              exact absurd h.1 (by simp)
            | true =>
              simp only [DevSecrets.from_id, DevsecretsRootDir.new,
                DevsecretsRootDir.with_config_root, hpe, hdir, if_true,
                DevsecretsRootDir.get_child, hpec, FS.metadataIsDir,
                hdc, Prod.mk.injEq] at h
              exact absurd h.1 (by simp)

/-- Claim C4 witness: on an empty filesystem the construction reports
not-initialized and changes nothing; the same holds when the root exists
but the child directory for the identity is missing. -/
theorem from_id_spec_witness :
    DevSecrets.from_id (some ["home"]) ⟨"u"⟩ ⟨[], []⟩ =
      (.error .directoryNotInitialized, ⟨[], []⟩)
    ∧ DevSecrets.from_id (some ["home"]) ⟨"u"⟩ ⟨[["home", "rust-devsecrets"]], []⟩ =
      (.error .directoryNotInitialized, ⟨[["home", "rust-devsecrets"]], []⟩) :=
  ⟨(from_id_spec (some ["home"]) ["home"] ⟨"u"⟩ ⟨[], []⟩).1 rfl (by decide),
    (from_id_spec (some ["home"]) ["home"] ⟨"u"⟩ ⟨[["home", "rust-devsecrets"]], []⟩).2.1
      rfl (by decide) (by decide)⟩

/-! ## Claims C6, C7, C8: root directory lifecycle -/

/-- Claim C6 counterexample: the platform reports a per-user
configuration root (`some ["home", "u", ".config"]`), no existing path
component is a non-directory (the filesystem is empty), yet `ensure`
fails with `NotFound` instead of creating the missing components: the
source checks `root.metadata()` before `create_dir_all`, so a
configuration root that does not yet exist on disk is an error, contrary
to the claim that `ensure()` then succeeds. -/
theorem ensure_new_missing_root_counterexample :
    DevsecretsRootDir.ensure_new (some ["home", "u", ".config"]) ⟨[], []⟩ =
      (.error .notFound, ⟨[], []⟩) := by decide

/-- Claim C6 (amended): `ensure()` fails when the per-user configuration
root cannot be determined, when the configuration root itself does not
exist on disk, or when an existing path component is not a directory;
when the configuration root exists on disk as a directory (and no file
occupies a component of the reserved path), it creates the missing
reserved subdirectory and succeeds, even if that subdirectory did not
exist yet. -/
theorem ensure_root_spec (root : FPath) (fs : FS) :
    DevsecretsRootDir.ensure_new none fs = (.error .notFound, fs)
    ∧ (fs.pathExists root = false →
        DevsecretsRootDir.ensure_with_config_root root fs = (.error .notFound, fs))
    ∧ (fs.pathExists root = true → fs.isDir root = false →
        DevsecretsRootDir.ensure_with_config_root root fs = (.error .alreadyExists, fs))
    ∧ (fs.isDir root = true →
        (∀ q ∈ (root ++ [DEVSECRETS_CONFIG_DIR]).inits, fs.isFile q = false) →
        DevsecretsRootDir.ensure_with_config_root root fs =
          (.ok ⟨root ++ [DEVSECRETS_CONFIG_DIR]⟩,
            ⟨(root ++ [DEVSECRETS_CONFIG_DIR]).inits ++ fs.dirs, fs.files⟩)
        ∧ FS.isDir ⟨(root ++ [DEVSECRETS_CONFIG_DIR]).inits ++ fs.dirs, fs.files⟩
            (root ++ [DEVSECRETS_CONFIG_DIR]) = true) := by
  refine ⟨rfl, ?_, ?_, ?_⟩
  · intro hpe
    simp [DevsecretsRootDir.ensure_with_config_root, FS.metadataIsDir, hpe]
  · intro hpe hdir
    simp [DevsecretsRootDir.ensure_with_config_root, FS.metadataIsDir, hpe, hdir]
  · intro hdir hnofile
    have hpe : fs.pathExists root = true := by simp [FS.pathExists, hdir]
    have hany : (root ++ [DEVSECRETS_CONFIG_DIR]).inits.any fs.isFile = false := by
      rw [List.any_eq_false]
      intro q hq
      rw [hnofile q hq]
      exact Bool.false_ne_true
    constructor
    · simp only [DevsecretsRootDir.ensure_with_config_root, FS.metadataIsDir, hpe, if_true,
        hdir, FS.createDirAll, hany, Bool.false_eq_true, if_false]
    · have hmem : root ++ [DEVSECRETS_CONFIG_DIR] ∈
          (root ++ [DEVSECRETS_CONFIG_DIR]).inits ++ fs.dirs := by
        rw [List.mem_append, List.mem_inits]
        exact Or.inl (List.prefix_refl _)
      exact List.elem_eq_true_of_mem hmem

/-- Claim C6 witness: with configuration root `home` existing on disk as
a directory and the reserved subdirectory absent, `ensure` creates it and
succeeds. -/
theorem ensure_root_spec_witness :
    DevsecretsRootDir.ensure_with_config_root ["home"] ⟨[["home"]], []⟩ =
      (.ok ⟨["home", "rust-devsecrets"]⟩,
        ⟨[[], ["home"], ["home", "rust-devsecrets"], ["home"]], []⟩)
    ∧ FS.isDir ⟨[[], ["home"], ["home", "rust-devsecrets"], ["home"]], []⟩
        ["home", "rust-devsecrets"] = true :=
  (ensure_root_spec ["home"] ⟨[["home"]], []⟩).2.2.2 (by decide) (by decide)

/-- Claim C7: `with_config_root` returns an explicit `none` (not an
error) when the reserved path is absent, a fatal error when the path is
occupied by a non-directory, and a handle when it is a directory;
`get_child` behaves the same way for `<root>/<identity string>`; and both
are read-only — the returned filesystem state equals the input state on
every outcome. -/
theorem root_lookup_spec (root : FPath) (rd : DevsecretsRootDir) (id : DevsecretsId)
    (fs : FS) :
    (DevsecretsRootDir.with_config_root root fs).2 = fs
    ∧ (fs.pathExists (root ++ [DEVSECRETS_CONFIG_DIR]) = false →
        DevsecretsRootDir.with_config_root root fs = (.ok none, fs))
    ∧ (fs.pathExists (root ++ [DEVSECRETS_CONFIG_DIR]) = true →
        fs.isDir (root ++ [DEVSECRETS_CONFIG_DIR]) = false →
        DevsecretsRootDir.with_config_root root fs = (.error .alreadyExists, fs))
    ∧ (fs.isDir (root ++ [DEVSECRETS_CONFIG_DIR]) = true →
        DevsecretsRootDir.with_config_root root fs =
          (.ok (some ⟨root ++ [DEVSECRETS_CONFIG_DIR]⟩), fs))
    ∧ (rd.get_child id fs).2 = fs
    ∧ (fs.pathExists (rd.config_dir ++ [id.id_str]) = false →
        rd.get_child id fs = (.ok none, fs))
    ∧ (fs.pathExists (rd.config_dir ++ [id.id_str]) = true →
        fs.isDir (rd.config_dir ++ [id.id_str]) = false →
        rd.get_child id fs = (.error .alreadyExists, fs))
    ∧ (fs.isDir (rd.config_dir ++ [id.id_str]) = true →
        rd.get_child id fs = (.ok (some ⟨rd.config_dir ++ [id.id_str]⟩), fs)) := by
  refine ⟨?_, ?_, ?_, ?_, ?_, ?_, ?_, ?_⟩
  · cases hpe : fs.pathExists (root ++ [DEVSECRETS_CONFIG_DIR]) with
    | false => simp [DevsecretsRootDir.with_config_root, hpe]
    | true =>
      cases hd : fs.isDir (root ++ [DEVSECRETS_CONFIG_DIR]) with
      | false => simp [DevsecretsRootDir.with_config_root, hpe, hd]
      | true => simp [DevsecretsRootDir.with_config_root, hpe, hd]
  · intro hpe
    simp [DevsecretsRootDir.with_config_root, hpe]
  · intro hpe hd
    simp [DevsecretsRootDir.with_config_root, hpe, hd]
  · intro hd
    have hpe : fs.pathExists (root ++ [DEVSECRETS_CONFIG_DIR]) = true := by
      simp [FS.pathExists, hd]
    simp [DevsecretsRootDir.with_config_root, hpe, hd]
  · cases hpe : fs.pathExists (rd.config_dir ++ [id.id_str]) with
    | false => simp [DevsecretsRootDir.get_child, hpe]
    | true =>
      cases hd : fs.isDir (rd.config_dir ++ [id.id_str]) with
      | false => simp [DevsecretsRootDir.get_child, FS.metadataIsDir, hpe, hd]
      | true => simp [DevsecretsRootDir.get_child, FS.metadataIsDir, hpe, hd]
  · intro hpe
    simp [DevsecretsRootDir.get_child, hpe]
  · intro hpe hd
    simp [DevsecretsRootDir.get_child, FS.metadataIsDir, hpe, hd]
  · intro hd
    have hpe : fs.pathExists (rd.config_dir ++ [id.id_str]) = true := by
      simp [FS.pathExists, hd]
    simp [DevsecretsRootDir.get_child, FS.metadataIsDir, hpe, hd]

/-- Claim C7 witness: the reserved path absent, the reserved path
occupied by a file, the child absent, and the child present as a
directory, each at a concrete filesystem. -/
theorem root_lookup_spec_witness :
    DevsecretsRootDir.with_config_root ["home"] ⟨[], []⟩ = (.ok none, ⟨[], []⟩)
    ∧ DevsecretsRootDir.with_config_root ["home"]
        ⟨[], [(["home", "rust-devsecrets"], "x")]⟩ =
      (.error .alreadyExists, ⟨[], [(["home", "rust-devsecrets"], "x")]⟩)
    ∧ (DevsecretsRootDir.mk ["cfg"]).get_child ⟨"u"⟩ ⟨[], []⟩ = (.ok none, ⟨[], []⟩)
    ∧ (DevsecretsRootDir.mk ["cfg"]).get_child ⟨"u"⟩ ⟨[["cfg", "u"]], []⟩ =
      (.ok (some ⟨["cfg", "u"]⟩), ⟨[["cfg", "u"]], []⟩) :=
  ⟨(root_lookup_spec ["home"] ⟨["cfg"]⟩ ⟨"u"⟩ ⟨[], []⟩).2.1 (by decide),
    (root_lookup_spec ["home"] ⟨["cfg"]⟩ ⟨"u"⟩
      ⟨[], [(["home", "rust-devsecrets"], "x")]⟩).2.2.1 (by decide) (by decide),
    (root_lookup_spec ["home"] ⟨["cfg"]⟩ ⟨"u"⟩ ⟨[], []⟩).2.2.2.2.2.1 (by decide),
    (root_lookup_spec ["home"] ⟨["cfg"]⟩ ⟨"u"⟩
      ⟨[["cfg", "u"]], []⟩).2.2.2.2.2.2.2 (by decide)⟩

/-- Claim C8: `ensure_child` is idempotent.  A successful call yields the
handle at `<root>/<identity string>`, and a second call on the resulting
state succeeds with the same handle; moreover whenever no file occupies a
component of the child path — in particular when the child directory
already exists — `ensure_child` succeeds (creating an existing directory
is not an error). -/
theorem ensure_child_idempotent (rd : DevsecretsRootDir) (id : DevsecretsId)
    (fs fs₁ : FS) (d : DevsecretsDir) :
    (rd.ensure_child id fs = (.ok d, fs₁) →
      d = ⟨rd.config_dir ++ [id.id_str]⟩
      ∧ ∃ fs₂, rd.ensure_child id fs₁ = (.ok d, fs₂))
    ∧ ((∀ q ∈ (rd.config_dir ++ [id.id_str]).inits, fs.isFile q = false) →
      ∃ fs', rd.ensure_child id fs = (.ok ⟨rd.config_dir ++ [id.id_str]⟩, fs')) := by
  constructor
  · intro h
    cases hc : (rd.config_dir ++ [id.id_str]).inits.any fs.isFile with
    | true =>
      have hcd : FS.createDirAll fs (rd.config_dir ++ [id.id_str]) =
          .error .alreadyExists := by
        simp only [FS.createDirAll, hc, if_true]
      simp only [DevsecretsRootDir.ensure_child, hcd, Prod.mk.injEq] at h
      exact absurd h.1 (by simp)
    | false =>
      have hcd : FS.createDirAll fs (rd.config_dir ++ [id.id_str]) =
          .ok ⟨(rd.config_dir ++ [id.id_str]).inits ++ fs.dirs, fs.files⟩ := by
        simp only [FS.createDirAll, hc, Bool.false_eq_true, if_false]
      simp only [DevsecretsRootDir.ensure_child, hcd, Prod.mk.injEq] at h
      obtain ⟨h₁, h₂⟩ := h
      have hd : d = ⟨rd.config_dir ++ [id.id_str]⟩ := (Except.ok.inj h₁).symm
      refine ⟨hd, ?_⟩
      have hc2 : (rd.config_dir ++ [id.id_str]).inits.any fs₁.isFile = false := by
        rw [← h₂]
        exact hc
      refine ⟨⟨(rd.config_dir ++ [id.id_str]).inits ++ fs₁.dirs, fs₁.files⟩, ?_⟩
      rw [hd]
      simp only [DevsecretsRootDir.ensure_child, FS.createDirAll, hc2, Bool.false_eq_true,
        if_false]
  · intro hnofile
    have hany : (rd.config_dir ++ [id.id_str]).inits.any fs.isFile = false := by
      rw [List.any_eq_false]
      intro q hq
      rw [hnofile q hq]
      exact Bool.false_ne_true
    refine ⟨⟨(rd.config_dir ++ [id.id_str]).inits ++ fs.dirs, fs.files⟩, ?_⟩
    simp only [DevsecretsRootDir.ensure_child, FS.createDirAll, hany, Bool.false_eq_true,
      if_false]

/-- Claim C8 witness: `ensure_child` on an empty filesystem, then again
on the resulting state, both yielding the handle at `cfg/u`; and on a
state where `cfg/u` already exists as a directory. -/
theorem ensure_child_idempotent_witness :
    ((DevsecretsDir.mk ["cfg", "u"]) = ⟨["cfg", "u"]⟩
      ∧ ∃ fs₂, (DevsecretsRootDir.mk ["cfg"]).ensure_child ⟨"u"⟩
          ⟨[[], ["cfg"], ["cfg", "u"]], []⟩ = (.ok ⟨["cfg", "u"]⟩, fs₂))
    ∧ ∃ fs', (DevsecretsRootDir.mk ["cfg"]).ensure_child ⟨"u"⟩ ⟨[["cfg", "u"]], []⟩ =
        (.ok ⟨["cfg", "u"]⟩, fs') :=
  ⟨(ensure_child_idempotent ⟨["cfg"]⟩ ⟨"u"⟩ ⟨[], []⟩
      ⟨[[], ["cfg"], ["cfg", "u"]], []⟩ ⟨["cfg", "u"]⟩).1 (by decide),
    (ensure_child_idempotent ⟨["cfg"]⟩ ⟨"u"⟩ ⟨[["cfg", "u"]], []⟩
      ⟨[["cfg", "u"]], []⟩ ⟨["cfg", "u"]⟩).2 (by decide)⟩

/-! ## Claim C5: the typed read -/

/-- Claim C5 counterexample: for the request `/etc/passwd.txt` — whose
resolution fails with `InvalidRelativePath` — read with a format whose
declared extension is `json`, `into_value` reports `InvalidExtension`:
the source checks the extension before resolving the path, so the typed
read does not "first resolve the path, then check the extension" as
claimed (the resolution error is never surfaced). -/
theorem into_value_order_counterexample :
    into_value ⟨"json", fun c => .ok c⟩ (DevSecrets.mk ⟨["r"]⟩)
      ⟨[.rootMarker, .normal "etc", .normal "passwd.txt"]⟩ ⟨[], []⟩ =
      (.error (.invalidExtension "path must have the expected extension"), ⟨[], []⟩)
    ∧ (DevSecrets.mk ⟨["r"]⟩).get_relative_path
        ⟨[.rootMarker, .normal "etc", .normal "passwd.txt"]⟩ =
      .error (.invalidRelativePath "path must not be absolute") :=
  ⟨by decide, by decide⟩

/-- Claim C5 (amended): the typed read checks the extension first.  When
the request path's extension differs from the format's declared extension
— an exact, case-sensitive comparison of the final suffix only, so
`a.tar.json` matches the `json` extension — `into_value` fails with
`InvalidExtension` on every filesystem state, before any I/O and before
resolution, leaving the state unchanged; when the extension matches, the
path is resolved (resolution failures propagate unchanged), and a
deserializer failure on a successfully opened file is wrapped into
`ParseError` with the underlying cause preserved. -/
theorem into_value_spec {α : Type} (F : Format α) (ds : DevSecrets) (p : RPath) (fs : FS)
    (contents : String) :
    (p.extension ≠ some F.extension →
      into_value F ds p fs =
        (.error (.invalidExtension "path must have the expected extension"), fs))
    ∧ (p.extension = some F.extension →
      ∀ e, ds.get_relative_path p = .error e → into_value F ds p fs = (.error e, fs))
    ∧ (p.extension = some F.extension →
      ∀ full, ds.get_relative_path p = .ok full → fs.readFile full = .ok contents →
        ∀ err, F.deserialize contents = .error err →
          into_value F ds p fs = (.error (.parseError err), fs))
    ∧ RPath.extension ⟨[.normal "a.tar.json"]⟩ = some "json" := by
  refine ⟨?_, ?_, ?_, by decide⟩
  · intro hne
    have hce : check_extension p F.extension =
        .error (.invalidExtension "path must have the expected extension") := by
      rw [check_extension, if_pos hne]
    simp only [into_value, hce]
  · intro heq e herr
    have hce : check_extension p F.extension = .ok () := by
      rw [check_extension, if_neg (not_not_intro heq)]
    simp only [into_value, hce, DevSecrets.make_reader_inner, herr]
  · intro heq full hok hread err hdes
    have hce : check_extension p F.extension = .ok () := by
      rw [check_extension, if_neg (not_not_intro heq)]
    simp only [into_value, hce, DevSecrets.make_reader_inner, hok, hread, hdes]

/-- Claim C5 witness: reading `secret.txt` with the `json` extension
fails with `InvalidExtension` on an empty filesystem, and a failing
deserializer on `a.json` is wrapped into `ParseError` carrying its
error. -/
theorem into_value_spec_witness :
    into_value ⟨"json", fun c => .ok c⟩ (DevSecrets.mk ⟨["r"]⟩)
      ⟨[.normal "secret.txt"]⟩ ⟨[], []⟩ =
      (.error (.invalidExtension "path must have the expected extension"), ⟨[], []⟩)
    ∧ into_value ⟨"json", fun c => (.error c : Except String String)⟩
        (DevSecrets.mk ⟨["r"]⟩) ⟨[.normal "a.json"]⟩
        ⟨[], [(["r", "a.json"], "boom")]⟩ =
      (.error (.parseError "boom"), ⟨[], [(["r", "a.json"], "boom")]⟩) :=
  ⟨(into_value_spec ⟨"json", fun c => .ok c⟩ (DevSecrets.mk ⟨["r"]⟩)
      ⟨[.normal "secret.txt"]⟩ ⟨[], []⟩ "").1 (by decide),
    (into_value_spec ⟨"json", fun c => (.error c : Except String String)⟩
      (DevSecrets.mk ⟨["r"]⟩) ⟨[.normal "a.json"]⟩
      ⟨[], [(["r", "a.json"], "boom")]⟩ "boom").2.2.1 (by decide)
      ["r", "a.json"] (by decide) (by decide) "boom" rfl⟩

/-! ## Claims C9 and C10: identity strings -/

/-- Claim C9 counterexample: the identity type performs no validation at
its construction boundary — the string field of `DevsecretsId` is public
— so an Identity carrying the non-canonical string `evil` is
constructible, and `get_child` joins exactly that string under the root
directory: the claimed invariant that every Identity string joined by
`get_child`/`ensure_child` is a canonical 36-character lowercase
hyphenated UUID rendering fails. -/
theorem devsecretsId_unvalidated_counterexample :
    isCanonicalUuidStr (DevsecretsId.mk "evil").id_str = false
    ∧ (DevsecretsId.mk "evil").id_str.length ≠ 36
    ∧ (DevsecretsRootDir.mk ["cfg", "rust-devsecrets"]).get_child ⟨"evil"⟩
        ⟨[["cfg", "rust-devsecrets", "evil"]], []⟩ =
      (.ok (some ⟨["cfg", "rust-devsecrets", "evil"]⟩),
        ⟨[["cfg", "rust-devsecrets", "evil"]], []⟩) :=
  ⟨by decide, by decide, by decide⟩

/-- Claim C9 (amended): the identity type itself enforces no boundary
validation (its string field is public and the directory join is
unchecked), but every Identity produced by the provided constructors
`new_unique` and `from_uuid` carries the canonical 36-character lowercase
hyphenated rendering of its UUID. -/
theorem devsecretsId_constructors_canonical (u : Uuid) (hu : u.valid) :
    isCanonicalUuidStr (DevsecretsId.from_uuid u).id_str = true
    ∧ isCanonicalUuidStr (DevsecretsId.new_unique u).id_str = true
    ∧ (DevsecretsId.from_uuid u).id_str.length = 36 :=
  ⟨isCanonicalUuidStr_toHyphenatedLower u hu, isCanonicalUuidStr_toHyphenatedLower u hu,
    toHyphenatedLower_length u hu⟩

/-- Claim C9 witness: the constructors applied to the all-zero UUID yield
the canonical string `00000000-0000-0000-0000-000000000000`. -/
theorem devsecretsId_constructors_canonical_witness :
    isCanonicalUuidStr (DevsecretsId.from_uuid ⟨List.replicate 32 0⟩).id_str = true
    ∧ isCanonicalUuidStr (DevsecretsId.new_unique ⟨List.replicate 32 0⟩).id_str = true
    ∧ (DevsecretsId.from_uuid ⟨List.replicate 32 0⟩).id_str.length = 36 :=
  devsecretsId_constructors_canonical ⟨List.replicate 32 0⟩ (by decide)

/-- Claim C10: sidecar parsing is lenient and normalizing.  An uppercase
hyphenated UUID string and a 32-hex-digit unhyphenated one are both
accepted by `read_devsecrets_id` (no `CorruptIdentity` error), and the
Identity returned carries the canonical lowercase hyphenated rendering,
which differs textually from the file contents in both cases. -/
theorem read_devsecrets_id_lenient :
    read_devsecrets_id ["proj"]
      ⟨[["proj"]], [(["proj", ".devsecrets_uuid.txt"],
        "0123ABCD-89AB-CDEF-0123-456789ABCDEF")]⟩ =
      .ok (some ⟨"0123abcd-89ab-cdef-0123-456789abcdef"⟩)
    ∧ isCanonicalUuidStr "0123abcd-89ab-cdef-0123-456789abcdef" = true
    ∧ "0123abcd-89ab-cdef-0123-456789abcdef" ≠ "0123ABCD-89AB-CDEF-0123-456789ABCDEF"
    ∧ read_devsecrets_id ["proj"]
        ⟨[["proj"]], [(["proj", ".devsecrets_uuid.txt"],
          "0123abcdef0123456789abcdef012345")]⟩ =
      .ok (some ⟨"0123abcd-ef01-2345-6789-abcdef012345"⟩)
    ∧ "0123abcd-ef01-2345-6789-abcdef012345" ≠ "0123abcdef0123456789abcdef012345" :=
  ⟨by decide, by decide, by decide, by decide, by decide⟩

end Devsecrets
